import Mathlib

set_option maxRecDepth 100000

/-!
Shallow embedding of the `payment_verifyer` repository
(`api/telebirr_verifier.py` and `api/sdk.py`): the receipt extractor
(regular-expression field extraction), the transaction verifier, and the
SDK wrapper, together with proofs about the properties of the pipeline.

Python strings are modelled as lists of characters; Python `decimal.Decimal`
values are modelled as exact scaled integers; the regular expressions of
`parse_telebirr_receipt` are modelled by a backtracking matcher whose
priority order follows Python's `re` module (leftmost start position,
greedy quantifiers prefer longer, lazy quantifiers prefer shorter,
alternation prefers the left branch).
-/

/-- Python strings are modelled as lists of characters. -/
abbrev Str := List Char

/-- Convert a Lean string literal into the character-list model. -/
def strL (s : String) : Str := s.data

/-- Python `str.strip()`: remove leading and trailing whitespace. -/
def pyStrip (s : Str) : Str :=
  ((s.dropWhile Char.isWhitespace).reverse.dropWhile Char.isWhitespace).reverse

/-- Python `str.lower()` (ASCII case folding suffices for this code base). -/
def pyLower (s : Str) : Str := s.map Char.toLower

/-- `leadsWith needle hay` holds when `needle` is an initial segment of `hay`. -/
def leadsWith : Str → Str → Bool
  | [], _ => true
  | _ :: _, [] => false
  | a :: t, b :: u => a == b && leadsWith t u

/-- Substring test: `containsSub needle hay`. -/
def containsSub (needle : Str) : Str → Bool
  | [] => needle.isEmpty
  | c :: t => leadsWith needle (c :: t) || containsSub needle t

/-!
### Exact decimals

`Dec` models Python `decimal.Decimal` for the values handled by this code
base: the value of `⟨mant, scale⟩` is `mant / 10 ^ scale`.  All arithmetic
used by the source (subtraction, absolute value, comparison, equality) is
exact at these magnitudes, so no rounding is modelled.
-/

structure Dec where
  mant : Int
  scale : Nat
deriving DecidableEq, Repr

/-- Numeric equality of decimals (Python `Decimal.__eq__`). -/
def Dec.beqv (a b : Dec) : Bool :=
  a.mant * (10 : Int) ^ b.scale == b.mant * (10 : Int) ^ a.scale

/-- Numeric equality of decimals, as a proposition. -/
def Dec.ValEq (a b : Dec) : Prop :=
  a.mant * (10 : Int) ^ b.scale = b.mant * (10 : Int) ^ a.scale

instance (a b : Dec) : Decidable (Dec.ValEq a b) := by
  unfold Dec.ValEq; infer_instance

/-- Strict order on decimals (Python `Decimal.__lt__`). -/
def Dec.blt (a b : Dec) : Bool :=
  decide (a.mant * (10 : Int) ^ b.scale < b.mant * (10 : Int) ^ a.scale)

/-- Exact subtraction; the result keeps the finer of the two scales,
as Python's exact `Decimal` subtraction does. -/
def Dec.sub (a b : Dec) : Dec :=
  let s := max a.scale b.scale
  ⟨a.mant * (10 : Int) ^ (s - a.scale) - b.mant * (10 : Int) ^ (s - b.scale), s⟩

/-- Absolute value, preserving the scale (Python `abs` on `Decimal`). -/
def Dec.abs (d : Dec) : Dec := ⟨(d.mant.natAbs : Int), d.scale⟩

/-- Python truthiness of a `Decimal`: false exactly on zero
(`Decimal('0.00')` is falsy). -/
def Dec.truthy (d : Dec) : Bool := !(d.mant == 0)

/-- Decimal digits of a natural number, most significant first. -/
def decDigits (n : Nat) : Str := Nat.toDigits 10 n

/-- Left-pad with `'0'` up to length `n`. -/
def padZeros (l : Str) (n : Nat) : Str := List.replicate (n - l.length) '0' ++ l

/-- Python `str()` of a `Decimal` whose exponent is `-scale ≤ 0`
(the only shape arising in this code base), e.g. `0.009`, `100.00`, `7`. -/
def decString (d : Dec) : Str :=
  let sign : Str := if d.mant < 0 then ['-'] else []
  let ds := padZeros (decDigits d.mant.natAbs) (d.scale + 1)
  if d.scale = 0 then sign ++ ds
  else sign ++ ds.take (ds.length - d.scale) ++ ['.'] ++ ds.drop (ds.length - d.scale)

/-- Digit character test restricted to ASCII, as used by the receipt patterns. -/
def isDigitCh (c : Char) : Bool := c.isDigit

/-- The character class `[\d.]` of the amount patterns. -/
def isDigitDot (c : Char) : Bool := c.isDigit || c == '.'

/-- Value of a string of ASCII digits. -/
def digitsToNat (s : Str) : Nat :=
  s.foldl (fun acc c => acc * 10 + (c.toNat - '0'.toNat)) 0

/-- Python `Decimal(text)` restricted to the digit/dot strings that the
amount patterns (`[\d.]+`) can produce: at most one dot, at least one
digit; anything else raises, modelled as `none`. -/
def parseDecimal (s : Str) : Option Dec :=
  let intp := s.takeWhile (fun c => !(c == '.'))
  let rest := s.dropWhile (fun c => !(c == '.'))
  match rest with
  | [] => if !s.isEmpty && s.all isDigitCh then some ⟨(digitsToNat s : Int), 0⟩ else none
  | _ :: frac =>
      if intp.all isDigitCh && frac.all isDigitCh && (!intp.isEmpty || !frac.isEmpty) then
        some ⟨(digitsToNat (intp ++ frac) : Int), frac.length⟩
      else none

/-!
### Regular-expression matcher

`RE` covers exactly the constructs used by the patterns of
`parse_telebirr_receipt`: character classes, concatenation, alternation,
optional groups, starred character classes (greedy and lazy), and a single
capturing group per pattern.  The matcher `mrun` is a continuation-passing
backtracking matcher whose exploration order coincides with Python's `re`
module on these constructs; `research` models `re.search` (leftmost starting
position, then the backtracking order at that position) and returns the
text captured by group 1.
-/

inductive RE where
  | eps
  | cls (p : Char → Bool)
  | seq (a b : RE)
  | alt (a b : RE)
  | starCls (p : Char → Bool) (lazy : Bool)
  | group (a : RE)

/-- Greedy star over a character class: consume as many `p`-characters as
possible, then give characters back one at a time on failure of `k`. -/
def greedyStar (p : Char → Bool) (k : Str → Option Str → Option Str) (cap : Option Str) :
    Str → Option Str
  | [] => k [] cap
  | c :: rest =>
    if p c then
      match greedyStar p k cap rest with
      | some r => some r
      | none => k (c :: rest) cap
    else k (c :: rest) cap

/-- Lazy star over a character class: try `k` first, then consume one more
`p`-character at a time. -/
def lazyStar (p : Char → Bool) (k : Str → Option Str → Option Str) (cap : Option Str) :
    Str → Option Str
  | [] => k [] cap
  | c :: rest =>
    match k (c :: rest) cap with
    | some r => some r
    | none => if p c then lazyStar p k cap rest else none

/-- Backtracking matcher.  `mrun r inp cap k` attempts to match `r` at the
start of `inp`, threading the group-1 capture `cap`, and calls the
continuation `k` with the remaining input on each candidate match, in
Python's backtracking order. -/
def mrun : RE → Str → Option Str → (Str → Option Str → Option Str) → Option Str
  | .eps, inp, cap, k => k inp cap
  | .cls p, inp, cap, k =>
    match inp with
    | [] => none
    | c :: rest => if p c then k rest cap else none
  | .seq a b, inp, cap, k => mrun a inp cap (fun r c => mrun b r c k)
  | .alt a b, inp, cap, k =>
    match mrun a inp cap k with
    | some r => some r
    | none => mrun b inp cap k
  | .starCls p true, inp, cap, k => lazyStar p k cap inp
  | .starCls p false, inp, cap, k => greedyStar p k cap inp
  | .group a, inp, cap, k =>
    mrun a inp cap (fun r _ => k r (some (inp.take (inp.length - r.length))))

/-- The final continuation of a search: succeed, reporting group 1. -/
def mfin : Str → Option Str → Option Str := fun _ cap => some (cap.getD [])

/-- `re.search(pattern, text).group(1)`: try every start position from the
left, returning the group-1 text of the first position that matches. -/
def research (r : RE) : Str → Option Str
  | [] =>
    match mrun r [] none mfin with
    | some g => some g
    | none => none
  | c :: t =>
    match mrun r (c :: t) none mfin with
    | some g => some g
    | none => research r t

/-- Concatenation of a list of patterns. -/
def reSeq (l : List RE) : RE := l.foldr RE.seq RE.eps

/-- A literal string (case-sensitive). -/
def litStr (s : String) : RE := reSeq (s.data.map (fun c => RE.cls (fun x => x == c)))

/-- A literal string under `re.IGNORECASE`. -/
def litStrCI (s : String) : RE :=
  reSeq (s.data.map (fun c => RE.cls (fun x => x.toLower == c.toLower)))

/-- `x?` (greedy option). -/
def reOpt (r : RE) : RE := RE.alt r RE.eps

/-- `[c]+` greedy plus over a character class. -/
def plusCls (p : Char → Bool) : RE := RE.seq (RE.cls p) (RE.starCls p false)

/-- `[c]+?` lazy plus over a character class. -/
def plusClsL (p : Char → Bool) : RE := RE.seq (RE.cls p) (RE.starCls p true)

/-- `[c]{n}` exact repetition of a character class. -/
def repCls (p : Char → Bool) (n : Nat) : RE := reSeq (List.replicate n (RE.cls p))

/-- Character classes used by the receipt patterns. -/
def nonLt (c : Char) : Bool := !(c == '<')

def nonGt (c : Char) : Bool := !(c == '>')

def nonQuote (c : Char) : Bool := !(c == '"')

def wsCh (c : Char) : Bool := c.isWhitespace

def anyCh (_ : Char) : Bool := true

def upNum (c : Char) : Bool := ('A' ≤ c && c ≤ 'Z') || ('0' ≤ c && c ≤ '9')

/-- `\s*` (greedy). -/
def wsStar : RE := RE.starCls wsCh false

/-!
### The receipt patterns of `parse_telebirr_receipt`

Each definition transcribes one regular expression of the source, in the
same order of constructs.  Patterns compiled with `re.IGNORECASE` use
`litStrCI` for their literals.
-/

def payerNamePat : RE := reSeq [
  litStr "የከፋይ ስም/Payer Name", RE.starCls nonLt false, litStr "</td>", wsStar,
  litStr "<td", RE.starCls nonGt false, litStr "style=\"text-align: left\"",
  RE.starCls nonGt false, litStr ">", wsStar,
  RE.group (plusClsL nonLt), wsStar, litStr "</td>"]

def payerTelebirrPat : RE := reSeq [
  litStr "የከፋይ ቴሌብር ቁ./Payer telebirr no.", RE.starCls nonLt false, litStr "</td>", wsStar,
  litStr "<td", RE.starCls nonGt false, litStr "style=\"text-align: left\"",
  RE.starCls nonGt false, litStr ">", wsStar,
  RE.group (plusClsL nonLt), wsStar, litStr "</td>"]

def statusPat : RE := reSeq [
  litStr "የክፍያው ሁኔታ/transaction status", RE.starCls nonLt false,
  litStr "<td", RE.starCls nonGt false, litStr "style=\"text-align: left\"",
  RE.starCls nonGt false, litStr ">", wsStar,
  RE.group (plusClsL nonLt), wsStar, litStr "</td>"]

def invoicePat : RE := reSeq [
  litStr "<td", RE.starCls nonGt false, litStr "class=\"receipttableTd",
  RE.starCls nonQuote false, litStr "\"", RE.starCls nonGt false, litStr ">", wsStar,
  RE.group (RE.seq (repCls upNum 8) (RE.starCls upNum false)), wsStar, litStr "</td>"]

def datePat : RE := reSeq [
  litStr "<td", RE.starCls nonGt false, litStr "class=\"receipttableTd",
  RE.starCls nonQuote false, litStr "\"", RE.starCls nonGt false, litStr ">", wsStar,
  RE.group (reSeq [repCls isDigitCh 2, litStr "-", repCls isDigitCh 2, litStr "-",
    repCls isDigitCh 4, plusCls wsCh, repCls isDigitCh 2, litStr ":",
    repCls isDigitCh 2, litStr ":", repCls isDigitCh 2]),
  wsStar, litStr "</td>"]

/-- Prefix of the settled-amount pattern, up to the capture group. -/
def settledPre : RE := reSeq [
  litStr "<td", RE.starCls nonGt false, litStr "class=\"receipttableTd",
  RE.starCls nonQuote false, litStr "\"", RE.starCls nonGt false, litStr ">", wsStar]

/-- Suffix of the settled-amount pattern, after the capture group. -/
def settledPost : RE := reSeq [wsStar, litStr "Birr", wsStar, litStr "</td>"]

def settledPat : RE := RE.seq settledPre (RE.seq (RE.group (plusCls isDigitDot)) settledPost)

def totalPaidPat : RE := reSeq [
  litStr "ጠቅላላ የተከፈለ/Total Paid Amount", RE.starCls nonLt false, litStr "</td>", wsStar,
  litStr "<td", RE.starCls nonGt false, litStr "class=\"receipttableTd",
  RE.starCls nonQuote false, litStr "\"", RE.starCls nonGt false, litStr ">", wsStar,
  RE.group (plusCls isDigitDot), wsStar, litStr "Birr", wsStar, litStr "</td>"]

def referencePat : RE := reSeq [
  litStr "የክፍያው ማዘዣ ቁጥር/Payment reference number", RE.starCls nonLt false,
  litStr "<label", RE.starCls nonGt false, litStr "id=\"paid_reference_number\"",
  RE.starCls nonGt false, litStr ">", wsStar,
  RE.group (plusClsL nonLt), wsStar, litStr "</label>"]

def creditedNamePat1 : RE := reSeq [
  litStrCI "የገንዘብ ተቀባይ ስም/Credited Party name", RE.starCls nonLt false,
  litStrCI "</td>", wsStar, litStrCI "<td", RE.starCls nonGt false,
  litStrCI "style=\"", RE.starCls nonQuote false, litStrCI "text-align:", wsStar,
  litStrCI "left", RE.starCls nonQuote false, litStrCI "\"",
  RE.starCls nonGt false, litStrCI ">", wsStar,
  RE.group (plusClsL nonLt), wsStar, reOpt (litStrCI "</label>"), wsStar, litStrCI "</td>"]

def creditedNamePat2 : RE := reSeq [
  litStrCI "የገንዘብ ተቀባይ ስም/Credited Party name", RE.starCls nonLt false,
  litStrCI "</td>", wsStar, litStrCI "<td", RE.starCls nonGt false, litStrCI ">", wsStar,
  RE.group (plusClsL nonLt), wsStar, reOpt (litStrCI "</label>"), wsStar, litStrCI "</td>"]

def creditedNamePat3 : RE := reSeq [
  litStrCI "የገንዘብ ተቀባይ ስም/Credited Party name", RE.starCls nonLt false,
  litStrCI "</td>", RE.starCls anyCh true, litStrCI "<td", RE.starCls nonGt false,
  litStrCI ">", wsStar,
  RE.group (plusClsL nonLt), wsStar, reOpt (litStrCI "</label>"), wsStar, litStrCI "</td>"]

def creditedAccountPat : RE := reSeq [
  litStr "የገንዘብ ተቀባይ ቴሌብር ቁ./Credited party account no", RE.starCls nonLt false,
  litStr "</td>", wsStar, litStr "<td", RE.starCls nonGt false,
  litStr "class=\"auto-style3\"", RE.starCls nonGt false,
  litStr "style=\"text-align: left\"", RE.starCls nonGt false, litStr ">", wsStar,
  RE.group (plusClsL nonLt), wsStar, litStr "</td>"]

def paymentReasonPat : RE := reSeq [
  litStr "የክፍያ ምክንያት/Payment Reason", RE.starCls nonLt false, litStr "</td>", wsStar,
  litStr "<td", RE.starCls nonGt false, litStr "style=\"", RE.starCls nonQuote false,
  litStr "border-bottom", RE.starCls nonQuote false, litStr "\"",
  RE.starCls nonGt false, litStr "class=\"auto-style18\"",
  RE.starCls nonGt false, litStr ">", wsStar,
  RE.group (plusClsL nonLt), wsStar, litStr "</td>"]

def paymentChannelPat : RE := reSeq [
  litStr "የክፍያ መንገድ/Payment channel", RE.starCls nonLt false, litStr "</td>", wsStar,
  litStr "<td", RE.starCls nonGt false, litStr "class=\"auto-style18\"",
  RE.starCls nonGt false, litStr "style=\"", RE.starCls nonQuote false,
  litStr "border-bottom", RE.starCls nonQuote false, litStr "\"",
  RE.starCls nonGt false, litStr ">", wsStar,
  RE.group (plusClsL nonLt), wsStar, litStr "</td>"]

/-!
### Data model
-/

/-- A monetary field value: the parsed `Decimal`, or the raw matched text
when the decimal conversion raised (retained for diagnostics). -/
inductive AmountVal where
  | dec (d : Dec)
  | str (s : Str)
deriving DecidableEq, Repr

/-- Python truthiness of an amount field value. -/
def AmountVal.truthy : AmountVal → Bool
  | .dec d => d.truthy
  | .str s => !s.isEmpty

/-- Python truthiness of `dict.get(key)` on an amount field. -/
def truthyA : Option AmountVal → Bool
  | none => false
  | some v => v.truthy

/-- `Decimal(str(v))`: the exact round trip for a stored decimal, a fresh
parse for a retained raw string (which raises again, i.e. `none`). -/
def reparseVal : AmountVal → Option Dec
  | .dec d => some d
  | .str s => parseDecimal s

/-- The extracted-field mapping produced by `parse_telebirr_receipt`.
Absence (`none`) models a key missing from the Python dict. -/
structure ExtractedFields where
  payer_name : Option Str := none
  payer_telebirr_no : Option Str := none
  transaction_status : Option Str := none
  invoice_no : Option Str := none
  payment_date : Option Str := none
  settled_amount : Option AmountVal := none
  total_paid : Option AmountVal := none
  payment_reference : Option Str := none
  credited_party_name : Option Str := none
  credited_party_account : Option Str := none
  payment_reason : Option Str := none
  payment_channel : Option Str := none
deriving DecidableEq, Repr

/-- Python truthiness of the fields dict: empty iff no key was stored. -/
def ExtractedFields.isEmpty (d : ExtractedFields) : Bool :=
  d.payer_name.isNone && d.payer_telebirr_no.isNone && d.transaction_status.isNone &&
  d.invoice_no.isNone && d.payment_date.isNone && d.settled_amount.isNone &&
  d.total_paid.isNone && d.payment_reference.isNone && d.credited_party_name.isNone &&
  d.credited_party_account.isNone && d.payment_reason.isNone && d.payment_channel.isNone

/-- The fields dict with no key stored. -/
def emptyFields : ExtractedFields := {}

/-- `Decimal(text)` with the raw text retained on failure, as the amount
extraction of `parse_telebirr_receipt` does. -/
def toAmount (g : Str) : AmountVal :=
  match parseDecimal g with
  | some d => .dec d
  | none => .str g

/-- The credited-party-name loop: try the pattern variants in order and
stop at the first match whose stripped group is non-empty. -/
def firstNonEmptyMatch : List RE → Str → Option Str
  | [], _ => none
  | p :: ps, html =>
    match research p html with
    | some g =>
      let n := pyStrip g
      if n.isEmpty then firstNonEmptyMatch ps html else some n
    | none => firstNonEmptyMatch ps html

/-- The payment-reference extraction: store the stripped group only when it
is non-empty. -/
def refExtract (html : Str) : Option Str :=
  (research referencePat html).bind fun g =>
    let v := pyStrip g
    if v.isEmpty then none else some v

/-- `parse_telebirr_receipt`: one independent pattern rule per field.
`re.findall(...)[0]` for the settled amount coincides with `re.search`
(first match), and the raw group is stored without stripping there;
the total-paid group is stripped before conversion. -/
def parse_telebirr_receipt (html : Str) : ExtractedFields where
  payer_name := (research payerNamePat html).map pyStrip
  payer_telebirr_no := (research payerTelebirrPat html).map pyStrip
  transaction_status := (research statusPat html).map pyStrip
  invoice_no := (research invoicePat html).map pyStrip
  payment_date := (research datePat html).map pyStrip
  settled_amount := (research settledPat html).map toAmount
  total_paid := (research totalPaidPat html).map (fun g => toAmount (pyStrip g))
  payment_reference := refExtract html
  credited_party_name :=
    firstNonEmptyMatch [creditedNamePat1, creditedNamePat2, creditedNamePat3] html
  credited_party_account := (research creditedAccountPat html).map pyStrip
  payment_reason := (research paymentReasonPat html).map pyStrip
  payment_channel := (research paymentChannelPat html).map pyStrip

/-!
### The transaction verifier (`verify_telebirr_transaction`)
-/

/-- The structured match record built by `verify_telebirr_transaction`
when an expected amount is supplied (`matches` dict). -/
structure Matches where
  amount_match : Bool
  expected_amount : Option Str := none
  actual_amount : Option Str := none
  error : Option Str := none
deriving DecidableEq, Repr

/-- The result dict of `verify_telebirr_transaction`; `matchesField` models
the `'matches'` key (`matches` is reserved in Lean). -/
structure TxResult where
  verified : Bool
  error : Option Str := none
  transaction_data : Option ExtractedFields := none
  matchesField : Option Matches := none
deriving DecidableEq, Repr

/-- The amount-reconciliation block of `verify_telebirr_transaction`:
`if settled_amount: ... elif total_paid: ... else: ...`, with Python
truthiness on the amounts and exact `Decimal` equality. -/
def tx_amount_matches (td : ExtractedFields) (ea : Dec) : Matches :=
  let totalBranch : Matches :=
    match td.total_paid with
    | some w =>
      if w.truthy then
        match reparseVal w with
        | some tdc => ⟨Dec.beqv tdc ea, some (decString ea), some (decString tdc), none⟩
        | none => ⟨false, none, none, some (strL "Could not compare amounts")⟩
      else ⟨false, none, none, some (strL "No amount found in receipt")⟩
    | none => ⟨false, none, none, some (strL "No amount found in receipt")⟩
  match td.settled_amount with
  | some v =>
    if v.truthy then
      match reparseVal v with
      | some sd => ⟨Dec.beqv sd ea, some (decString ea), some (decString sd), none⟩
      | none => ⟨false, none, none, some (strL "Could not compare amounts")⟩
    else totalBranch
  | none => totalBranch

/-- `verify_telebirr_transaction` after a successful fetch: the parse-failure
check, the status check, then optional amount reconciliation. -/
def verify_telebirr_transaction_parsed (td : ExtractedFields) (expected : Option Dec) :
    TxResult :=
  if td.isEmpty then
    ⟨false, some (strL "Failed to parse receipt data"), none, none⟩
  else
    let status := pyLower (td.transaction_status.getD [])
    if status = strL "completed" then
      ⟨true, none, some td, expected.map (tx_amount_matches td)⟩
    else
      ⟨false,
       some (strL "Transaction status is " ++ status ++ strL ", expected completed"),
       some td, none⟩

/-- The fetch-failure result of `verify_telebirr_transaction`. -/
def fetchFailTx : TxResult :=
  ⟨false, some (strL "Failed to fetch receipt from telebirr API"), none, none⟩

/-- `verify_telebirr_transaction`, with the fetch step abstracted as a
function from reference number to optional document (`fetch_telebirr_receipt`
is network I/O; `if not html_content:` also treats an empty document as a
failed fetch). -/
def verify_telebirr_transaction (fetch : Str → Option Str) (ref : Str)
    (expected : Option Dec) : TxResult :=
  match fetch ref with
  | none => fetchFailTx
  | some html =>
    if html.isEmpty then fetchFailTx
    else verify_telebirr_transaction_parsed (parse_telebirr_receipt html) expected

/-!
### The SDK wrapper (`PaymentVerificationSDK.verify_telebirr_payment`)
-/

/-- The `amount_verification` record of the SDK response. -/
structure AmountVerification where
  amount_match : Bool
  expected_amount : Str
  actual_amount : Option Str
  difference : Option Str
deriving DecidableEq, Repr

/-- The SDK response dict. -/
structure SDKResult where
  verified : Bool
  error : Option Str := none
  transaction_data : Option ExtractedFields := none
  verified_amount : Option Dec := none
  amount_verification : Option AmountVerification := none
  message : Option Str := none
deriving DecidableEq, Repr

/-- `transaction_data.get('settled_amount') or transaction_data.get('total_paid')`:
Python `or` yields the first operand when truthy, the second otherwise. -/
def sdk_settled_or_total (td : ExtractedFields) : Option AmountVal :=
  if truthyA td.settled_amount then td.settled_amount else td.total_paid

/-- The SDK's resolved actual amount: the truthy settled-or-total value
converted back through `Decimal(str(...))`; exceptions leave it `None`. -/
def sdk_resolved_amount (td : ExtractedFields) : Option Dec :=
  match sdk_settled_or_total td with
  | some v => if v.truthy then reparseVal v else none
  | none => none

/-- The amount-mismatch message of the SDK. -/
def mismatchMsg (ea va : Dec) : Str :=
  strL "Amount mismatch: Expected " ++ decString ea ++ strL " ETB, but receipt shows " ++
    decString va ++ strL " ETB"

/-- The verified branch of `verify_telebirr_payment` (lines 32-69 of
`sdk.py`): resolve the amount, then reconcile against the expected amount
with the sub-cent tolerance `Decimal('0.01')`. -/
def sdk_success (td : ExtractedFields) (expected : Option Dec) : SDKResult :=
  let va := sdk_resolved_amount td
  let base : SDKResult :=
    ⟨true, none, some td, va, none, some (strL "Transaction verified successfully")⟩
  match expected, va with
  | some ea, some v =>
    let diff := Dec.abs (Dec.sub v ea)
    let m := Dec.blt diff ⟨1, 2⟩
    { base with
      amount_verification :=
        some ⟨m, decString ea, some (decString v), some (decString diff)⟩,
      error := if m then none else some (mismatchMsg ea v) }
  | some ea, none =>
    { base with
      error := some (strL "No amount found in verification data. Cannot verify payment amount."),
      message := some (strL "Transaction verified but amount could not be confirmed"),
      amount_verification := some ⟨false, decString ea, none, none⟩ }
  | none, _ => base

/-- The post-processing of `verify_telebirr_payment` on the transaction
verifier's result.  On failure the SDK forwards the inner error and
transaction data (`.get('transaction_data', {})` never falls back to `{}`
because the key is always present, possibly with value `None`).  On success
the transaction data is always present; the empty mapping stands in for the
unreachable missing case. -/
def sdk_post (vr : TxResult) (expected : Option Dec) : SDKResult :=
  if vr.verified then sdk_success (vr.transaction_data.getD emptyFields) expected
  else ⟨false, some (vr.error.getD (strL "Verification failed")), vr.transaction_data,
        none, none, none⟩

/-- `PaymentVerificationSDK.verify_telebirr_payment`. -/
def verify_telebirr_payment (fetch : Str → Option Str) (ref : Str)
    (expected : Option Dec) : SDKResult :=
  sdk_post (verify_telebirr_transaction fetch ref expected) expected

/-!
### Properties of stripping
-/

theorem pyStrip_eq_rdrop (s : Str) :
    pyStrip s = List.rdropWhile Char.isWhitespace (List.dropWhile Char.isWhitespace s) := rfl

theorem dropWhile_rdrop_drop (p : Char → Bool) (s : Str) :
    List.dropWhile p (List.rdropWhile p (List.dropWhile p s)) =
      List.rdropWhile p (List.dropWhile p s) := by
  rw [List.dropWhile_eq_self_iff]
  intro hl
  have hpre : (List.dropWhile p s).rdropWhile p <+: List.dropWhile p s :=
    List.rdropWhile_prefix p (List.dropWhile p s)
  have hl2 : 0 < (List.dropWhile p s).length := lt_of_lt_of_le hl hpre.length_le
  have hg := List.dropWhile_get_zero_not (p := p) s hl2
  intro hcon
  apply hg
  simpa [List.get_eq_getElem, List.IsPrefix.getElem hpre] using hcon

/-- Python `strip` is idempotent: a stripped string strips to itself. -/
theorem pyStrip_idem (s : Str) : pyStrip (pyStrip s) = pyStrip s := by
  rw [pyStrip_eq_rdrop, pyStrip_eq_rdrop, dropWhile_rdrop_drop]
  exact List.rdropWhile_idempotent _ _

/-- A string with no whitespace characters strips to itself. -/
theorem pyStrip_of_no_ws {s : Str} (h : ∀ c ∈ s, c.isWhitespace = false) :
    pyStrip s = s := by
  have h1 : List.dropWhile Char.isWhitespace s = s := by
    cases s with
    | nil => rfl
    | cons c t => simp [List.dropWhile_cons, h c (by simp)]
  have h2 : List.dropWhile Char.isWhitespace s.reverse = s.reverse := by
    cases hr : s.reverse with
    | nil => rfl
    | cons c t =>
      simp [List.dropWhile_cons, h c (by rw [← List.mem_reverse, hr]; simp)]
  rw [pyStrip_eq_rdrop, h1, List.rdropWhile, h2, List.reverse_reverse]

/-- A digit-or-dot character is not whitespace. -/
theorem isDigitDot_not_ws {c : Char} (h : isDigitDot c = true) :
    c.isWhitespace = false := by
  rcases Bool.or_eq_true_iff.mp h with hd | he
  · by_contra hw
    simp only [Bool.not_eq_false] at hw
    have hw2 : ((c = ' ' ∨ c = '\t') ∨ c = '\r') ∨ c = '\n' := by
      simpa [Char.isWhitespace] using hw
    obtain ((rfl | rfl) | rfl) | rfl := hw2 <;> simp [Char.isDigit] at hd
  · have : c = '.' := by simpa using he
    subst this
    decide

/-!
### Elimination lemmas for the matcher

These recover, from a successful run of the matcher, the split of the
input that the continuation was called with — in particular that the text
captured by the settled-amount group consists of `[\d.]` characters only.
-/

/-- Patterns without a capture group. -/
def RE.groupFree : RE → Bool
  | .eps => true
  | .cls _ => true
  | .seq a b => a.groupFree && b.groupFree
  | .alt a b => a.groupFree && b.groupFree
  | .starCls _ _ => true
  | .group _ => false

theorem greedyStar_elim {p : Char → Bool} {k : Str → Option Str → Option Str}
    {cap : Option Str} {res : Str} :
    ∀ {inp : Str}, greedyStar p k cap inp = some res →
      ∃ j, j ≤ inp.length ∧ (inp.take j).all p = true ∧ k (inp.drop j) cap = some res := by
  intro inp
  induction inp with
  | nil => intro h; exact ⟨0, by simp, by simp, h⟩
  | cons c rest ih =>
    intro h
    rw [greedyStar] at h
    by_cases hp : p c
    · rw [if_pos hp] at h
      cases hg : greedyStar p k cap rest with
      | some r =>
        rw [hg] at h
        obtain rfl : r = res := by simpa using h
        obtain ⟨j, hj, hall, hk⟩ := ih hg
        exact ⟨j + 1, by simpa using hj, by simpa [hp] using hall, by simpa using hk⟩
      | none =>
        rw [hg] at h
        exact ⟨0, by simp, by simp, h⟩
    · rw [if_neg hp] at h
      exact ⟨0, by simp, by simp, h⟩

theorem lazyStar_elim {p : Char → Bool} {k : Str → Option Str → Option Str}
    {cap : Option Str} {res : Str} :
    ∀ {inp : Str}, lazyStar p k cap inp = some res →
      ∃ j, j ≤ inp.length ∧ (inp.take j).all p = true ∧ k (inp.drop j) cap = some res := by
  intro inp
  induction inp with
  | nil => intro h; exact ⟨0, by simp, by simp, h⟩
  | cons c rest ih =>
    intro h
    rw [lazyStar] at h
    cases hk : k (c :: rest) cap with
    | some r =>
      rw [hk] at h
      obtain rfl : r = res := by simpa using h
      exact ⟨0, by simp, by simp, by simpa using hk⟩
    | none =>
      rw [hk] at h
      by_cases hp : p c
      · rw [if_pos hp] at h
        obtain ⟨j, hj, hall, hk2⟩ := ih h
        exact ⟨j + 1, by simpa using hj, by simpa [hp] using hall, by simpa using hk2⟩
      · rw [if_neg hp] at h
        exact absurd h (by simp)

/-- A successful run of a group-free pattern calls the continuation with
the capture unchanged. -/
theorem mrun_groupFree_elim :
    ∀ (r : RE), r.groupFree = true →
      ∀ {inp : Str} {cap : Option Str} {k : Str → Option Str → Option Str} {res : Str},
        mrun r inp cap k = some res → ∃ rest, k rest cap = some res := by
  intro r
  induction r with
  | eps => intro _ inp cap k res h; exact ⟨inp, h⟩
  | cls p =>
    intro _ inp cap k res h
    cases inp with
    | nil => exact absurd h (by simp [mrun])
    | cons c t =>
      rw [mrun] at h
      by_cases hp : p c
      · rw [if_pos hp] at h; exact ⟨t, h⟩
      · rw [if_neg hp] at h; exact absurd h (by simp)
  | seq a b iha ihb =>
    intro hgf inp cap k res h
    rw [RE.groupFree, Bool.and_eq_true] at hgf
    rw [mrun] at h
    obtain ⟨r1, h1⟩ := iha hgf.1 h
    exact ihb hgf.2 h1
  | alt a b iha ihb =>
    intro hgf inp cap k res h
    rw [RE.groupFree, Bool.and_eq_true] at hgf
    rw [mrun] at h
    cases ha : mrun a inp cap k with
    | some r => rw [ha] at h; cases h; exact iha hgf.1 ha
    | none => rw [ha] at h; exact ihb hgf.2 h
  | starCls p lz =>
    intro _ inp cap k res h
    cases lz with
    | true =>
      rw [mrun] at h
      obtain ⟨j, _, _, hk⟩ := lazyStar_elim h
      exact ⟨inp.drop j, hk⟩
    | false =>
      rw [mrun] at h
      obtain ⟨j, _, _, hk⟩ := greedyStar_elim h
      exact ⟨inp.drop j, hk⟩
  | group a ih =>
    intro hgf
    exact absurd hgf (by simp [RE.groupFree])

/-- A successful run of `([\d.]+)`-style groups calls the continuation with
a non-empty capture of class characters taken from the front of the input. -/
theorem mrun_group_plus_elim {p : Char → Bool} {inp : Str} {cap : Option Str}
    {k : Str → Option Str → Option Str} {res : Str}
    (h : mrun (RE.group (plusCls p)) inp cap k = some res) :
    ∃ m, 1 ≤ m ∧ (inp.take m).all p = true ∧
      k (inp.drop m) (some (inp.take m)) = some res := by
  rw [mrun, plusCls, mrun] at h
  cases inp with
  | nil => exact absurd h (by simp [mrun])
  | cons c rest =>
    rw [mrun] at h
    by_cases hp : p c
    · rw [if_pos hp] at h
      rw [mrun] at h
      obtain ⟨j, hj, hall, hk⟩ := greedyStar_elim h
      refine ⟨j + 1, by omega, by simpa [hp] using hall, ?_⟩
      have hlen : rest.length + 1 - (rest.length - j) = j + 1 := by omega
      simp only [List.take_succ_cons, List.drop_succ_cons]
      simpa [hlen] using hk
    · rw [if_neg hp] at h
      exact absurd h (by simp)

/-- A successful search yields a successful anchored run at some suffix. -/
theorem research_elim {re : RE} :
    ∀ {html g : Str}, research re html = some g →
      ∃ inp : Str, mrun re inp none mfin = some g := by
  intro html
  induction html with
  | nil =>
    intro g h
    rw [research] at h
    cases hm : mrun re [] none mfin with
    | some g2 => rw [hm] at h; cases h; exact ⟨[], hm⟩
    | none => rw [hm] at h; exact absurd h (by simp)
  | cons c t ih =>
    intro g h
    rw [research] at h
    cases hm : mrun re (c :: t) none mfin with
    | some g2 => rw [hm] at h; cases h; exact ⟨c :: t, hm⟩
    | none => rw [hm] at h; exact ih h

/-- Any text returned by a search with the settled-amount pattern consists
of `[\d.]` characters only. -/
theorem research_settled_digits {html g : Str}
    (h : research settledPat html = some g) : g.all isDigitDot = true := by
  obtain ⟨inp, hm⟩ := research_elim h
  rw [settledPat, mrun] at hm
  obtain ⟨r1, h1⟩ := mrun_groupFree_elim settledPre (by rfl) hm
  rw [mrun] at h1
  obtain ⟨m, _, hall, hk⟩ := mrun_group_plus_elim h1
  obtain ⟨r2, h2⟩ := mrun_groupFree_elim settledPost (by rfl) hk
  rw [mfin] at h2
  cases h2
  exact hall

/-!
### Field-level consequences of extraction
-/

/-- Every value stored at a string field is fixed by stripping. -/
def TrimmedOpt (o : Option Str) : Prop := ∀ v, o = some v → pyStrip v = v

/-- Every raw string retained at an amount field is fixed by stripping. -/
def TrimmedAmt (o : Option AmountVal) : Prop := ∀ s, o = some (.str s) → pyStrip s = s

theorem trimmedOpt_map_strip {o : Option Str} : TrimmedOpt (o.map pyStrip) := by
  intro v hv
  cases o with
  | none => simp at hv
  | some g =>
    simp only [Option.map_some'] at hv
    cases hv
    exact pyStrip_idem g

theorem firstNonEmptyMatch_elim :
    ∀ {ps : List RE} {html n : Str}, firstNonEmptyMatch ps html = some n →
      pyStrip n = n ∧ n ≠ [] := by
  intro ps
  induction ps with
  | nil => intro html n h; exact absurd h (by simp [firstNonEmptyMatch])
  | cons p rest ih =>
    intro html n h
    rw [firstNonEmptyMatch] at h
    cases hre : research p html with
    | none => rw [hre] at h; exact ih h
    | some g =>
      simp only [hre] at h
      by_cases he : (pyStrip g).isEmpty
      · rw [if_pos he] at h; exact ih h
      · rw [if_neg he] at h
        cases h
        exact ⟨pyStrip_idem g, by simpa [List.isEmpty_iff] using he⟩

theorem refExtract_elim {html v : Str} (h : refExtract html = some v) :
    pyStrip v = v ∧ v ≠ [] := by
  rw [refExtract] at h
  cases hre : research referencePat html with
  | none => rw [hre] at h; exact absurd h (by simp)
  | some g =>
    rw [hre] at h
    simp only [Option.some_bind] at h
    by_cases he : (pyStrip g).isEmpty
    · rw [if_pos he] at h; exact absurd h (by simp)
    · rw [if_neg he] at h
      cases h
      exact ⟨pyStrip_idem g, by simpa [List.isEmpty_iff] using he⟩

theorem trimmedAmt_settled {html : Str} :
    TrimmedAmt ((research settledPat html).map toAmount) := by
  intro s hs
  cases hre : research settledPat html with
  | none => rw [hre] at hs; simp at hs
  | some g =>
    rw [hre] at hs
    simp only [Option.map_some'] at hs
    have hg : g = s := by
      rw [toAmount] at hs
      cases hp : parseDecimal g with
      | some d => rw [hp] at hs; simp at hs
      | none => rw [hp] at hs; simpa using hs
    subst hg
    exact pyStrip_of_no_ws fun c hc =>
      isDigitDot_not_ws (by
        have := research_settled_digits hre
        exact List.all_eq_true.mp this c hc)

theorem trimmedAmt_total {html : Str} :
    TrimmedAmt ((research totalPaidPat html).map (fun g => toAmount (pyStrip g))) := by
  intro s hs
  cases hre : research totalPaidPat html with
  | none => rw [hre] at hs; simp at hs
  | some g =>
    rw [hre] at hs
    simp only [Option.map_some'] at hs
    have hg : pyStrip g = s := by
      rw [toAmount] at hs
      cases hp : parseDecimal (pyStrip g) with
      | some d => rw [hp] at hs; simp at hs
      | none => rw [hp] at hs; simpa using hs
    rw [← hg]
    exact pyStrip_idem g

/-!
### Pipeline-unfolding helpers
-/

/-- A fields mapping with a stored transaction status is non-empty. -/
theorem fields_not_empty {td : ExtractedFields} {st : Str}
    (h : td.transaction_status = some st) : td.isEmpty = false := by
  simp [ExtractedFields.isEmpty, h]

theorem isEmpty_false_of_ne {html : Str} (h : html ≠ []) : html.isEmpty = false := by
  cases html with
  | nil => exact absurd rfl h
  | cons c t => rfl

/-- A completed-status document drives `verify_telebirr_transaction` into its
verified branch. -/
theorem verify_tx_completed {f : Str → Option Str} {ref html st : Str}
    {expected : Option Dec}
    (hf : f ref = some html) (hne : html ≠ [])
    (hst : (parse_telebirr_receipt html).transaction_status = some st)
    (hcomp : pyLower st = strL "completed") :
    verify_telebirr_transaction f ref expected =
      ⟨true, none, some (parse_telebirr_receipt html),
       expected.map (tx_amount_matches (parse_telebirr_receipt html))⟩ := by
  rw [verify_telebirr_transaction]
  simp only [hf, isEmpty_false_of_ne hne, Bool.false_eq_true, if_false]
  rw [verify_telebirr_transaction_parsed]
  simp only [fields_not_empty hst, Bool.false_eq_true, if_false, hst, Option.getD_some,
    hcomp, if_pos rfl, if_true]

/-- A completed-status document drives `verify_telebirr_payment` into
`sdk_success` on the parsed fields. -/
theorem verify_sdk_completed {f : Str → Option Str} {ref html st : Str}
    {expected : Option Dec}
    (hf : f ref = some html) (hne : html ≠ [])
    (hst : (parse_telebirr_receipt html).transaction_status = some st)
    (hcomp : pyLower st = strL "completed") :
    verify_telebirr_payment f ref expected =
      sdk_success (parse_telebirr_receipt html) expected := by
  rw [verify_telebirr_payment, verify_tx_completed hf hne hst hcomp, sdk_post]
  rfl

/-!
### The rational value of a decimal
-/

/-- The rational value of a decimal. -/
def Dec.val (d : Dec) : ℚ := (d.mant : ℚ) / (10 : ℚ) ^ d.scale

theorem Dec.blt_iff_val (a b : Dec) : Dec.blt a b = true ↔ a.val < b.val := by
  rw [Dec.blt, decide_eq_true_iff, Dec.val, Dec.val,
    div_lt_div_iff₀ (by positivity) (by positivity)]
  constructor
  · intro h; exact_mod_cast h
  · intro h; exact_mod_cast h

theorem Dec.beqv_iff_val (a b : Dec) : Dec.beqv a b = true ↔ a.val = b.val := by
  rw [Dec.beqv, beq_iff_eq, Dec.val, Dec.val,
    div_eq_div_iff (by positivity) (by positivity)]
  constructor
  · intro h; exact_mod_cast h
  · intro h; exact_mod_cast h

theorem Dec.scaled_div (m : Int) (t s : Nat) (ht : t ≤ s) :
    ((m : ℚ) * (10 : ℚ) ^ (s - t)) / (10 : ℚ) ^ s = (m : ℚ) / (10 : ℚ) ^ t := by
  rw [show (10 : ℚ) ^ s = (10 : ℚ) ^ (s - t) * (10 : ℚ) ^ t by
    rw [← pow_add, Nat.sub_add_cancel ht]]
  rw [mul_comm (m : ℚ) _, mul_div_mul_left _ _ (pow_ne_zero _ (by norm_num))]

theorem Dec.sub_val (a b : Dec) : (Dec.sub a b).val = a.val - b.val := by
  rw [Dec.sub, Dec.val, Dec.val, Dec.val]
  simp only
  push_cast
  rw [sub_div, Dec.scaled_div _ _ _ (le_max_left _ _),
    Dec.scaled_div _ _ _ (le_max_right _ _)]

theorem Dec.abs_val (d : Dec) : (Dec.abs d).val = |d.val| := by
  rw [Dec.abs, Dec.val, Dec.val]
  simp only
  rw [abs_div, abs_of_pos (a := (10 : ℚ) ^ d.scale) (by positivity)]
  congr 1
  rw [Int.cast_natCast, Int.cast_natAbs]
  exact_mod_cast rfl

/-!
### Concrete receipt documents used as witnesses
-/

/-- A completed-status fragment matching the transaction-status pattern. -/
def docStatusCompleted : Str :=
  strL "የክፍያው ሁኔታ/transaction status<td style=\"text-align: left\">Completed</td>"

/-- Completed status and a settled amount of 100.00 Birr. -/
def docCompleted100 : Str :=
  docStatusCompleted ++ strL "<td class=\"receipttableTd\">100.00 Birr</td>"

/-- Completed status, a settled amount of 0.00 Birr, and a total paid
amount of 150.00 Birr. -/
def docZeroSettledTotal : Str :=
  docStatusCompleted ++
    strL "<td class=\"receipttableTd\">0.00 Birr</td>ጠቅላላ የተከፈለ/Total Paid Amount</td><td class=\"receipttableTd\">150.00 Birr</td>"

/-- Completed status and a settled amount of 0.00 Birr, nothing else. -/
def docZeroSettledOnly : Str :=
  docStatusCompleted ++ strL "<td class=\"receipttableTd\">0.00 Birr</td>"

/-- A mixed-case failed status. -/
def docFailedStatus : Str :=
  strL "የክፍያው ሁኔታ/transaction status<td style=\"text-align: left\">Failed</td>"

/-- A payer name and nothing else (no status field). -/
def docPayerOnly : Str :=
  strL "የከፋይ ስም/Payer Name</td><td style=\"text-align: left\">John</td>"

/-- A whitespace-only payer-name cell. -/
def docBlankPayer : Str :=
  strL "የከፋይ ስም/Payer Name</td><td style=\"text-align: left\"> </td>"

/-- A credited-party row matching only the second pattern variant. -/
def docCreditedFallback : Str :=
  strL "የገንዘብ ተቀባይ ስም/Credited Party name</td><td>John Doe</td>"

/-!
### Claims
-/

/-- C1 (amended): for every reference whose fetch returns no document, both
`verify_telebirr_transaction` and `verify_telebirr_payment` return
verified=false with the fetch-failure error and — contrary to the claim —
a null `transaction_data` (Python `None`), not an empty mapping, raising
no exception. -/
theorem C1_fetch_failure_null_data (f : Str → Option Str) (ref : Str)
    (expected : Option Dec) (h : f ref = none) :
    verify_telebirr_transaction f ref expected =
      ⟨false, some (strL "Failed to fetch receipt from telebirr API"), none, none⟩ ∧
    verify_telebirr_payment f ref expected =
      ⟨false, some (strL "Failed to fetch receipt from telebirr API"),
       none, none, none, none⟩ := by
  have h1 : verify_telebirr_transaction f ref expected = fetchFailTx := by
    rw [verify_telebirr_transaction, h]
  exact ⟨h1, by rw [verify_telebirr_payment, h1]; rfl⟩

theorem C1_fetch_failure_null_data_witness :
    verify_telebirr_transaction (fun _ => none) (strL "CLS5C9Y98X") none =
      ⟨false, some (strL "Failed to fetch receipt from telebirr API"), none, none⟩ ∧
    verify_telebirr_payment (fun _ => none) (strL "CLS5C9Y98X") none =
      ⟨false, some (strL "Failed to fetch receipt from telebirr API"),
       none, none, none, none⟩ :=
  C1_fetch_failure_null_data (fun _ => none) (strL "CLS5C9Y98X") none rfl

/-- C1 counterexample: on fetch failure `transaction_data` is null in both
results, not the empty mapping the claim (and the SDK's dead `.get`
default) describes. -/
theorem C1_counterexample :
    (verify_telebirr_transaction (fun _ => none) (strL "CLS5C9Y98X") none).transaction_data
        = none ∧
    (verify_telebirr_payment (fun _ => none) (strL "CLS5C9Y98X") none).transaction_data
        = none ∧
    (none : Option ExtractedFields) ≠ some emptyFields := by decide

/-- C2 (amended): a document whose extraction yields some fields but no
transaction-status field gives verified=false, but with the status error
`Transaction status is , expected completed` (the missing status reads as
the empty string); the parse-failure error is reserved for documents where
no field at all was extracted. -/
theorem C2_missing_status_status_error (f : Str → Option Str) (ref html : Str)
    (expected : Option Dec) (hf : f ref = some html) (hne : html ≠ [])
    (hnonempty : (parse_telebirr_receipt html).isEmpty = false)
    (hst : (parse_telebirr_receipt html).transaction_status = none) :
    verify_telebirr_transaction f ref expected =
      ⟨false, some (strL "Transaction status is , expected completed"),
       some (parse_telebirr_receipt html), none⟩ := by
  rw [verify_telebirr_transaction]
  simp only [hf, isEmpty_false_of_ne hne, Bool.false_eq_true, if_false]
  rw [verify_telebirr_transaction_parsed]
  simp only [hnonempty, Bool.false_eq_true, if_false, hst, Option.getD_none]
  rw [if_neg (by decide)]
  simp only [pyLower, List.map_nil, List.nil_append]
  rfl

theorem C2_missing_status_status_error_witness :
    verify_telebirr_transaction (fun _ => some docPayerOnly) (strL "R") none =
      ⟨false, some (strL "Transaction status is , expected completed"),
       some (parse_telebirr_receipt docPayerOnly), none⟩ :=
  C2_missing_status_status_error (fun _ => some docPayerOnly) (strL "R") docPayerOnly none
    rfl (by decide) (by decide) (by decide)

/-- C2 counterexample: a document with a payer name and no status yields the
status error, not the parse-failure error the claim requires. -/
theorem C2_counterexample :
    verify_telebirr_transaction (fun _ => some docPayerOnly) (strL "R") none =
      ⟨false, some (strL "Transaction status is , expected completed"),
       some { payer_name := some (strL "John") }, none⟩ ∧
    strL "Transaction status is , expected completed" ≠
      strL "Failed to parse receipt data" := by decide

/-- The sub-cent tolerance test of the SDK, in terms of rational values. -/
theorem Dec.blt_tol_iff (va ea : Dec) :
    Dec.blt (Dec.abs (Dec.sub va ea)) ⟨1, 2⟩ = true ↔ |va.val - ea.val| < 1 / 100 := by
  rw [Dec.blt_iff_val, Dec.abs_val, Dec.sub_val]
  norm_num [Dec.val]

/-- C3: in the SDK's primary path, with an expected amount supplied and an
actual amount resolved, `amount_match` holds iff the absolute difference is
strictly below 0.01; in particular 100.00 vs 100.009 matches, 100.00 vs
100.02 does not, and equal amounts report difference `0.00`. -/
theorem C3_sdk_tolerance :
    (∀ (f : Str → Option Str) (ref html st : Str) (ea va : Dec),
      f ref = some html → html ≠ [] →
      (parse_telebirr_receipt html).transaction_status = some st →
      pyLower st = strL "completed" →
      sdk_resolved_amount (parse_telebirr_receipt html) = some va →
      (verify_telebirr_payment f ref (some ea)).amount_verification =
        some ⟨Dec.blt (Dec.abs (Dec.sub va ea)) ⟨1, 2⟩, decString ea,
              some (decString va), some (decString (Dec.abs (Dec.sub va ea)))⟩ ∧
      ((verify_telebirr_payment f ref (some ea)).amount_verification.map
          AmountVerification.amount_match = some true ↔
        |va.val - ea.val| < 1 / 100)) ∧
    (verify_telebirr_payment (fun _ => some docCompleted100) (strL "R")
        (some ⟨100009, 3⟩)).amount_verification =
      some ⟨true, strL "100.009", some (strL "100.00"), some (strL "0.009")⟩ ∧
    (verify_telebirr_payment (fun _ => some docCompleted100) (strL "R")
        (some ⟨10002, 2⟩)).amount_verification =
      some ⟨false, strL "100.02", some (strL "100.00"), some (strL "0.02")⟩ ∧
    (verify_telebirr_payment (fun _ => some docCompleted100) (strL "R")
        (some ⟨10000, 2⟩)).amount_verification =
      some ⟨true, strL "100.00", some (strL "100.00"), some (strL "0.00")⟩ := by
  refine ⟨?_, by decide, by decide, by decide⟩
  intro f ref html st ea va hf hne hst hcomp hres
  have hrec : (verify_telebirr_payment f ref (some ea)).amount_verification =
      some ⟨Dec.blt (Dec.abs (Dec.sub va ea)) ⟨1, 2⟩, decString ea,
            some (decString va), some (decString (Dec.abs (Dec.sub va ea)))⟩ := by
    rw [verify_sdk_completed hf hne hst hcomp, sdk_success]
    simp only [hres]
  refine ⟨hrec, ?_⟩
  rw [hrec]
  simp only [Option.map_some', Option.some_inj]
  exact Dec.blt_tol_iff va ea

theorem C3_sdk_tolerance_witness :
    (verify_telebirr_payment (fun _ => some docCompleted100) (strL "R")
        (some ⟨15000, 2⟩)).amount_verification =
      some ⟨Dec.blt (Dec.abs (Dec.sub ⟨10000, 2⟩ ⟨15000, 2⟩)) ⟨1, 2⟩,
            decString ⟨15000, 2⟩, some (decString ⟨10000, 2⟩),
            some (decString (Dec.abs (Dec.sub ⟨10000, 2⟩ ⟨15000, 2⟩)))⟩ :=
  (C3_sdk_tolerance.1 (fun _ => some docCompleted100) (strL "R") docCompleted100
    (strL "Completed") ⟨15000, 2⟩ ⟨10000, 2⟩ rfl (by decide) (by decide) (by decide)
    (by decide)).1

/-- C4: in the transaction-level check, the structured match record reports
`amount_match` iff the resolved actual amount is numerically equal to the
expected amount — no tolerance: 100.00 vs 100.009 is rejected there, while
the numerically equal 100.0 is accepted. -/
theorem C4_tx_exact_equality :
    (∀ (f : Str → Option Str) (ref html st : Str) (ea a : Dec) (v : AmountVal),
      f ref = some html → html ≠ [] →
      (parse_telebirr_receipt html).transaction_status = some st →
      pyLower st = strL "completed" →
      (parse_telebirr_receipt html).settled_amount = some v → v.truthy = true →
      reparseVal v = some a →
      (verify_telebirr_transaction f ref (some ea)).matchesField =
        some ⟨Dec.beqv a ea, some (decString ea), some (decString a), none⟩ ∧
      ((verify_telebirr_transaction f ref (some ea)).matchesField.map
          Matches.amount_match = some true ↔ a.val = ea.val)) ∧
    (∀ (f : Str → Option Str) (ref html st : Str) (ea a : Dec) (w : AmountVal),
      f ref = some html → html ≠ [] →
      (parse_telebirr_receipt html).transaction_status = some st →
      pyLower st = strL "completed" →
      truthyA (parse_telebirr_receipt html).settled_amount = false →
      (parse_telebirr_receipt html).total_paid = some w → w.truthy = true →
      reparseVal w = some a →
      (verify_telebirr_transaction f ref (some ea)).matchesField =
        some ⟨Dec.beqv a ea, some (decString ea), some (decString a), none⟩ ∧
      ((verify_telebirr_transaction f ref (some ea)).matchesField.map
          Matches.amount_match = some true ↔ a.val = ea.val)) ∧
    (verify_telebirr_transaction (fun _ => some docCompleted100) (strL "R")
        (some ⟨100009, 3⟩)).matchesField =
      some ⟨false, some (strL "100.009"), some (strL "100.00"), none⟩ ∧
    (verify_telebirr_transaction (fun _ => some docCompleted100) (strL "R")
        (some ⟨1000, 1⟩)).matchesField =
      some ⟨true, some (strL "100.0"), some (strL "100.00"), none⟩ := by
  refine ⟨?_, ?_, by decide, by decide⟩
  · intro f ref html st ea a v hf hne hst hcomp hsa htr hrep
    have hrec : (verify_telebirr_transaction f ref (some ea)).matchesField =
        some ⟨Dec.beqv a ea, some (decString ea), some (decString a), none⟩ := by
      rw [verify_tx_completed hf hne hst hcomp]
      simp only [Option.map_some']
      rw [tx_amount_matches]
      simp only [hsa, htr, if_true, hrep]
    refine ⟨hrec, ?_⟩
    rw [hrec]
    simp only [Option.map_some', Option.some_inj]
    exact Dec.beqv_iff_val a ea
  · intro f ref html st ea a w hf hne hst hcomp hsf hta htr hrep
    have hrec : (verify_telebirr_transaction f ref (some ea)).matchesField =
        some ⟨Dec.beqv a ea, some (decString ea), some (decString a), none⟩ := by
      rw [verify_tx_completed hf hne hst hcomp]
      simp only [Option.map_some']
      rw [tx_amount_matches]
      cases hsa : (parse_telebirr_receipt html).settled_amount with
      | none => simp only [hsa, hta, htr, if_true, hrep]
      | some v =>
        have hvf : v.truthy = false := by
          have := hsf
          rw [hsa] at this
          exact this
        simp only [hsa, hvf, Bool.false_eq_true, if_false, hta, htr, if_true, hrep]
    refine ⟨hrec, ?_⟩
    rw [hrec]
    simp only [Option.map_some', Option.some_inj]
    exact Dec.beqv_iff_val a ea

theorem C4_tx_exact_equality_witness :
    (verify_telebirr_transaction (fun _ => some docCompleted100) (strL "R")
        (some ⟨15000, 2⟩)).matchesField =
      some ⟨Dec.beqv ⟨10000, 2⟩ ⟨15000, 2⟩, some (decString ⟨15000, 2⟩),
            some (decString ⟨10000, 2⟩), none⟩ :=
  (C4_tx_exact_equality.1 (fun _ => some docCompleted100) (strL "R") docCompleted100
    (strL "Completed") ⟨15000, 2⟩ ⟨10000, 2⟩ (.dec ⟨10000, 2⟩) rfl (by decide)
    (by decide) (by decide) (by decide) (by decide) (by decide)).1

theorem truthyA_some (v : AmountVal) : truthyA (some v) = v.truthy := rfl

/-- The SDK's `verified_amount` is always the resolved amount. -/
theorem sdk_success_verified_amount (td : ExtractedFields) (expected : Option Dec) :
    (sdk_success td expected).verified_amount = sdk_resolved_amount td := by
  rw [sdk_success.eq_def]
  cases expected with
  | none => rfl
  | some ea =>
    cases hv : sdk_resolved_amount td with
    | none => simp only [hv]
    | some v => simp only [hv]

/-- C5 (amended): amount resolution uses Python truthiness, not key
presence: the settled amount is used when present and truthy (non-zero
decimal or non-empty raw string), else the total-paid amount when truthy,
else no amount resolves; when both are present and the settled amount is
truthy, the settled amount is the one compared. -/
theorem C5_resolution_by_truthiness (f : Str → Option Str) (ref html st : Str) (ea : Dec)
    (hf : f ref = some html) (hne : html ≠ [])
    (hst : (parse_telebirr_receipt html).transaction_status = some st)
    (hcomp : pyLower st = strL "completed") :
    (∀ v, (parse_telebirr_receipt html).settled_amount = some v → v.truthy = true →
      (verify_telebirr_payment f ref (some ea)).verified_amount = reparseVal v) ∧
    (truthyA (parse_telebirr_receipt html).settled_amount = false →
      ∀ w, (parse_telebirr_receipt html).total_paid = some w → w.truthy = true →
        (verify_telebirr_payment f ref (some ea)).verified_amount = reparseVal w) ∧
    (truthyA (parse_telebirr_receipt html).settled_amount = false →
      truthyA (parse_telebirr_receipt html).total_paid = false →
      (verify_telebirr_payment f ref (some ea)).verified_amount = none ∧
      (verify_telebirr_transaction f ref (some ea)).matchesField =
        some ⟨false, none, none, some (strL "No amount found in receipt")⟩) := by
  have hva : (verify_telebirr_payment f ref (some ea)).verified_amount =
      sdk_resolved_amount (parse_telebirr_receipt html) := by
    rw [verify_sdk_completed hf hne hst hcomp]
    exact sdk_success_verified_amount _ _
  refine ⟨?_, ?_, ?_⟩
  · intro v hsv htv
    rw [hva, sdk_resolved_amount, sdk_settled_or_total, hsv, truthyA_some, htv]
    simp only [if_true, htv]
  · intro hsf w htw htv
    rw [hva, sdk_resolved_amount, sdk_settled_or_total, hsf]
    simp only [Bool.false_eq_true, if_false, htw, htv, if_true]
  · intro hsf htf
    constructor
    · rw [hva, sdk_resolved_amount, sdk_settled_or_total, hsf]
      simp only [Bool.false_eq_true, if_false]
      cases htp : (parse_telebirr_receipt html).total_paid with
      | none => rfl
      | some w =>
        have hwf : w.truthy = false := by rw [htp, truthyA_some] at htf; exact htf
        simp only [hwf, Bool.false_eq_true, if_false]
    · rw [verify_tx_completed hf hne hst hcomp]
      simp only [Option.map_some']
      rw [tx_amount_matches]
      have htotal :
          (match (parse_telebirr_receipt html).total_paid with
            | some w =>
              if w.truthy then
                match reparseVal w with
                | some tdc =>
                  (⟨Dec.beqv tdc ea, some (decString ea), some (decString tdc),
                    none⟩ : Matches)
                | none => ⟨false, none, none, some (strL "Could not compare amounts")⟩
              else ⟨false, none, none, some (strL "No amount found in receipt")⟩
            | none => ⟨false, none, none, some (strL "No amount found in receipt")⟩) =
          (⟨false, none, none, some (strL "No amount found in receipt")⟩ : Matches) := by
        cases htp : (parse_telebirr_receipt html).total_paid with
        | none => rfl
        | some w =>
          have hwf : w.truthy = false := by rw [htp, truthyA_some] at htf; exact htf
          simp only [hwf, Bool.false_eq_true, if_false]
      cases hsa : (parse_telebirr_receipt html).settled_amount with
      | none => simp only [htotal]
      | some v =>
        have hvf : v.truthy = false := by rw [hsa, truthyA_some] at hsf; exact hsf
        simp only [hvf, Bool.false_eq_true, if_false, htotal]

theorem C5_resolution_by_truthiness_witness :
    (verify_telebirr_payment (fun _ => some docCompleted100) (strL "R")
        (some ⟨15000, 2⟩)).verified_amount = reparseVal (.dec ⟨10000, 2⟩) :=
  (C5_resolution_by_truthiness (fun _ => some docCompleted100) (strL "R") docCompleted100
    (strL "Completed") ⟨15000, 2⟩ rfl (by decide) (by decide) (by decide)).1
    (.dec ⟨10000, 2⟩) (by decide) (by decide)

/-- C5 counterexample: with a settled amount of 0.00 and a total paid amount
of 150.00 both present, both verification paths compare the total-paid
amount, not the settled amount the claim designates. -/
theorem C5_counterexample :
    (parse_telebirr_receipt docZeroSettledTotal).settled_amount = some (.dec ⟨0, 2⟩) ∧
    (parse_telebirr_receipt docZeroSettledTotal).total_paid = some (.dec ⟨15000, 2⟩) ∧
    (verify_telebirr_payment (fun _ => some docZeroSettledTotal) (strL "R")
        (some ⟨15000, 2⟩)).verified_amount = some ⟨15000, 2⟩ ∧
    (verify_telebirr_payment (fun _ => some docZeroSettledTotal) (strL "R")
        (some ⟨15000, 2⟩)).amount_verification =
      some ⟨true, strL "150.00", some (strL "150.00"), some (strL "0.00")⟩ ∧
    (verify_telebirr_transaction (fun _ => some docZeroSettledTotal) (strL "R")
        (some ⟨15000, 2⟩)).matchesField =
      some ⟨true, some (strL "150.00"), some (strL "150.00"), none⟩ := by decide

/-- C6: status completed, expected amount supplied, no actual amount
resolvable: the SDK result stays verified=true, reports amount_match=false
with null actual amount and difference, and carries the explicit
could-not-confirm message. -/
theorem C6_unconfirmed_amount (f : Str → Option Str) (ref html st : Str) (ea : Dec)
    (hf : f ref = some html) (hne : html ≠ [])
    (hst : (parse_telebirr_receipt html).transaction_status = some st)
    (hcomp : pyLower st = strL "completed")
    (hres : sdk_resolved_amount (parse_telebirr_receipt html) = none) :
    (verify_telebirr_payment f ref (some ea)).verified = true ∧
    (verify_telebirr_payment f ref (some ea)).amount_verification =
      some ⟨false, decString ea, none, none⟩ ∧
    (verify_telebirr_payment f ref (some ea)).message =
      some (strL "Transaction verified but amount could not be confirmed") ∧
    (verify_telebirr_payment f ref (some ea)).error =
      some (strL "No amount found in verification data. Cannot verify payment amount.") := by
  rw [verify_sdk_completed hf hne hst hcomp, sdk_success.eq_def]
  simp only [hres]
  exact ⟨trivial, trivial, trivial, trivial⟩

theorem C6_unconfirmed_amount_witness :
    (verify_telebirr_payment (fun _ => some docStatusCompleted) (strL "R")
        (some ⟨10000, 2⟩)).verified = true ∧
    (verify_telebirr_payment (fun _ => some docStatusCompleted) (strL "R")
        (some ⟨10000, 2⟩)).amount_verification =
      some ⟨false, decString ⟨10000, 2⟩, none, none⟩ ∧
    (verify_telebirr_payment (fun _ => some docStatusCompleted) (strL "R")
        (some ⟨10000, 2⟩)).message =
      some (strL "Transaction verified but amount could not be confirmed") ∧
    (verify_telebirr_payment (fun _ => some docStatusCompleted) (strL "R")
        (some ⟨10000, 2⟩)).error =
      some (strL "No amount found in verification data. Cannot verify payment amount.") :=
  C6_unconfirmed_amount (fun _ => some docStatusCompleted) (strL "R") docStatusCompleted
    (strL "Completed") ⟨10000, 2⟩ rfl (by decide) (by decide) (by decide) (by decide)

theorem leadsWith_self_append : ∀ (n b : Str), leadsWith n (n ++ b) = true
  | [], _ => rfl
  | c :: t, b => by simp [leadsWith, leadsWith_self_append t b]

theorem containsSub_mid : ∀ (a n b : Str), containsSub n (a ++ (n ++ b)) = true := by
  intro a
  induction a with
  | nil =>
    intro n b
    cases n with
    | nil =>
      cases b with
      | nil => rfl
      | cons c t => simp [containsSub, leadsWith]
    | cons c t =>
      have hl : leadsWith (c :: t) (c :: (t ++ b)) = true := leadsWith_self_append (c :: t) b
      simp only [List.nil_append, List.cons_append, containsSub]
      simp [hl]
  | cons c a2 ih =>
    intro n b
    have h2 : containsSub n (a2 ++ (n ++ b)) = true := ih n b
    simp only [List.cons_append, containsSub]
    simp [h2]

/-- C7 (amended): a present status that is not (case-insensitively)
`completed` yields verified=false, an error that embeds the lowercased
observed status, and a `transaction_data` carrying the extracted fields
unchanged; the original claim fails because the error holds the lowercased
status, not the status as observed. -/
theorem C7_status_mismatch (f : Str → Option Str) (ref html st : Str)
    (expected : Option Dec)
    (hf : f ref = some html) (hne : html ≠ [])
    (hst : (parse_telebirr_receipt html).transaction_status = some st)
    (hncomp : pyLower st ≠ strL "completed") :
    verify_telebirr_transaction f ref expected =
      ⟨false,
       some (strL "Transaction status is " ++ pyLower st ++ strL ", expected completed"),
       some (parse_telebirr_receipt html), none⟩ ∧
    containsSub (pyLower st)
      (strL "Transaction status is " ++ pyLower st ++ strL ", expected completed") =
      true := by
  constructor
  · rw [verify_telebirr_transaction]
    simp only [hf, isEmpty_false_of_ne hne, Bool.false_eq_true, if_false]
    rw [verify_telebirr_transaction_parsed]
    simp only [fields_not_empty hst, Bool.false_eq_true, if_false, hst, Option.getD_some]
    rw [if_neg hncomp]
  · exact containsSub_mid (strL "Transaction status is ") (pyLower st)
      (strL ", expected completed")

theorem C7_status_mismatch_witness :
    verify_telebirr_transaction (fun _ => some docFailedStatus) (strL "R") none =
      ⟨false,
       some (strL "Transaction status is " ++ pyLower (strL "Failed") ++
         strL ", expected completed"),
       some (parse_telebirr_receipt docFailedStatus), none⟩ ∧
    containsSub (pyLower (strL "Failed"))
      (strL "Transaction status is " ++ pyLower (strL "Failed") ++
        strL ", expected completed") = true :=
  C7_status_mismatch (fun _ => some docFailedStatus) (strL "R") docFailedStatus
    (strL "Failed") none rfl (by decide) (by decide) (by decide)

/-- C7 counterexample: with observed status `Failed` the error message is
`Transaction status is failed, expected completed` and does not contain the
observed status `Failed`. -/
theorem C7_counterexample :
    verify_telebirr_transaction (fun _ => some docFailedStatus) (strL "R") none =
      ⟨false, some (strL "Transaction status is failed, expected completed"),
       some { transaction_status := some (strL "Failed") }, none⟩ ∧
    containsSub (strL "Failed")
      (strL "Transaction status is failed, expected completed") = false := by decide

/-- C8: credited-party-name extraction tries the three pattern variants in
fixed order and returns the first non-empty stripped match; when the first
variant finds nothing and the second matches non-trivially, its stripped
group is the stored value. -/
theorem C8_credited_fallback :
    (∀ html : Str, (parse_telebirr_receipt html).credited_party_name =
      firstNonEmptyMatch [creditedNamePat1, creditedNamePat2, creditedNamePat3] html) ∧
    (∀ html g : Str, research creditedNamePat1 html = none →
      research creditedNamePat2 html = some g → pyStrip g ≠ [] →
      (parse_telebirr_receipt html).credited_party_name = some (pyStrip g)) := by
  refine ⟨fun html => rfl, ?_⟩
  intro html g h1 h2 hnem
  have hie : (pyStrip g).isEmpty = false := by
    simpa [List.isEmpty_iff] using hnem
  show firstNonEmptyMatch [creditedNamePat1, creditedNamePat2, creditedNamePat3] html =
    some (pyStrip g)
  rw [firstNonEmptyMatch, h1, firstNonEmptyMatch]
  simp only [h2, hie, Bool.false_eq_true, if_false]

theorem C8_credited_fallback_witness :
    (parse_telebirr_receipt docCreditedFallback).credited_party_name =
      some (pyStrip (strL "John Doe")) :=
  C8_credited_fallback.2 docCreditedFallback (strL "John Doe") (by decide) (by decide)
    (by decide)

/-- C9 (amended): every string value stored by `parse_telebirr_receipt` is
fixed under stripping (the settled-amount raw fallback contains only
digit/dot characters), and an empty-after-strip value is skipped for the
payment-reference and credited-party-name fields; the original claim fails
because the other fields store the stripped value unconditionally, so a
whitespace-only cell stores an empty string instead of leaving the field
absent. -/
theorem C9_stored_values_trimmed (html : Str) :
    TrimmedOpt (parse_telebirr_receipt html).payer_name ∧
    TrimmedOpt (parse_telebirr_receipt html).payer_telebirr_no ∧
    TrimmedOpt (parse_telebirr_receipt html).transaction_status ∧
    TrimmedOpt (parse_telebirr_receipt html).invoice_no ∧
    TrimmedOpt (parse_telebirr_receipt html).payment_date ∧
    TrimmedAmt (parse_telebirr_receipt html).settled_amount ∧
    TrimmedAmt (parse_telebirr_receipt html).total_paid ∧
    TrimmedOpt (parse_telebirr_receipt html).payment_reference ∧
    (parse_telebirr_receipt html).payment_reference ≠ some [] ∧
    TrimmedOpt (parse_telebirr_receipt html).credited_party_name ∧
    (parse_telebirr_receipt html).credited_party_name ≠ some [] ∧
    TrimmedOpt (parse_telebirr_receipt html).credited_party_account ∧
    TrimmedOpt (parse_telebirr_receipt html).payment_reason ∧
    TrimmedOpt (parse_telebirr_receipt html).payment_channel := by
  refine ⟨trimmedOpt_map_strip, trimmedOpt_map_strip, trimmedOpt_map_strip,
    trimmedOpt_map_strip, trimmedOpt_map_strip, trimmedAmt_settled, trimmedAmt_total,
    ?_, ?_, ?_, ?_, trimmedOpt_map_strip, trimmedOpt_map_strip, trimmedOpt_map_strip⟩
  · intro v hv; exact (refExtract_elim hv).1
  · intro hcon; exact (refExtract_elim hcon).2 rfl
  · intro v hv; exact (firstNonEmptyMatch_elim hv).1
  · intro hcon; exact (firstNonEmptyMatch_elim hcon).2 rfl

theorem C9_stored_values_trimmed_witness :
    (parse_telebirr_receipt docPayerOnly).payer_name = some (strL "John") ∧
    pyStrip (strL "John") = strL "John" :=
  ⟨by decide, (C9_stored_values_trimmed docPayerOnly).1 (strL "John") (by decide)⟩

/-- C9 counterexample: a whitespace-only payer-name cell matches with the
single-space group, which strips to the empty string — and the empty
string is stored, not dropped. -/
theorem C9_counterexample :
    research payerNamePat docBlankPayer = some (strL " ") ∧
    (parse_telebirr_receipt docBlankPayer).payer_name = some [] := by decide

/-- C10: an extracted settled amount equal to zero is falsy, hence treated
as absent by both entry points: reconciliation falls through to the
total-paid amount, and when that is also absent or zero, both paths report
that no amount was found. -/
theorem C10_zero_settled_treated_absent (f : Str → Option Str) (ref html st : Str)
    (ea : Dec) (z : Nat)
    (hf : f ref = some html) (hne : html ≠ [])
    (hst : (parse_telebirr_receipt html).transaction_status = some st)
    (hcomp : pyLower st = strL "completed")
    (hzero : (parse_telebirr_receipt html).settled_amount = some (.dec ⟨0, z⟩)) :
    (∀ w a, (parse_telebirr_receipt html).total_paid = some w → w.truthy = true →
      reparseVal w = some a →
      (verify_telebirr_payment f ref (some ea)).verified_amount = some a ∧
      (verify_telebirr_transaction f ref (some ea)).matchesField =
        some ⟨Dec.beqv a ea, some (decString ea), some (decString a), none⟩) ∧
    (truthyA (parse_telebirr_receipt html).total_paid = false →
      (verify_telebirr_payment f ref (some ea)).verified_amount = none ∧
      (verify_telebirr_payment f ref (some ea)).message =
        some (strL "Transaction verified but amount could not be confirmed") ∧
      (verify_telebirr_transaction f ref (some ea)).matchesField =
        some ⟨false, none, none, some (strL "No amount found in receipt")⟩) := by
  have hztr : AmountVal.truthy (.dec ⟨0, z⟩) = false := rfl
  have hsf : truthyA (parse_telebirr_receipt html).settled_amount = false := by
    rw [hzero, truthyA_some, hztr]
  have hva : (verify_telebirr_payment f ref (some ea)).verified_amount =
      sdk_resolved_amount (parse_telebirr_receipt html) := by
    rw [verify_sdk_completed hf hne hst hcomp]
    exact sdk_success_verified_amount _ _
  constructor
  · intro w a htw htv hrep
    constructor
    · rw [hva, sdk_resolved_amount, sdk_settled_or_total, hsf]
      simp only [Bool.false_eq_true, if_false, htw, htv, if_true, hrep]
    · rw [verify_tx_completed hf hne hst hcomp]
      simp only [Option.map_some']
      rw [tx_amount_matches]
      simp only [hzero, hztr, Bool.false_eq_true, if_false, htw, htv, if_true, hrep]
  · intro htf
    have hresnone : sdk_resolved_amount (parse_telebirr_receipt html) = none := by
      rw [sdk_resolved_amount, sdk_settled_or_total, hsf]
      simp only [Bool.false_eq_true, if_false]
      cases htp : (parse_telebirr_receipt html).total_paid with
      | none => rfl
      | some w =>
        have hwf : w.truthy = false := by rw [htp, truthyA_some] at htf; exact htf
        simp only [hwf, Bool.false_eq_true, if_false]
    refine ⟨by rw [hva, hresnone], ?_, ?_⟩
    · rw [verify_sdk_completed hf hne hst hcomp, sdk_success.eq_def]
      simp only [hresnone]
    · rw [verify_tx_completed hf hne hst hcomp]
      simp only [Option.map_some']
      rw [tx_amount_matches]
      have htotal :
          (match (parse_telebirr_receipt html).total_paid with
            | some w =>
              if w.truthy then
                match reparseVal w with
                | some tdc =>
                  (⟨Dec.beqv tdc ea, some (decString ea), some (decString tdc),
                    none⟩ : Matches)
                | none => ⟨false, none, none, some (strL "Could not compare amounts")⟩
              else ⟨false, none, none, some (strL "No amount found in receipt")⟩
            | none => ⟨false, none, none, some (strL "No amount found in receipt")⟩) =
          (⟨false, none, none, some (strL "No amount found in receipt")⟩ : Matches) := by
        cases htp : (parse_telebirr_receipt html).total_paid with
        | none => rfl
        | some w =>
          have hwf : w.truthy = false := by rw [htp, truthyA_some] at htf; exact htf
          simp only [hwf, Bool.false_eq_true, if_false]
      simp only [hzero, hztr, Bool.false_eq_true, if_false, htotal]

theorem C10_zero_settled_treated_absent_witness :
    ((verify_telebirr_payment (fun _ => some docZeroSettledTotal) (strL "R")
        (some ⟨15000, 2⟩)).verified_amount = some ⟨15000, 2⟩ ∧
      (verify_telebirr_transaction (fun _ => some docZeroSettledTotal) (strL "R")
          (some ⟨15000, 2⟩)).matchesField =
        some ⟨Dec.beqv ⟨15000, 2⟩ ⟨15000, 2⟩, some (decString ⟨15000, 2⟩),
              some (decString ⟨15000, 2⟩), none⟩) ∧
    ((verify_telebirr_payment (fun _ => some docZeroSettledOnly) (strL "R")
        (some ⟨15000, 2⟩)).verified_amount = none ∧
      (verify_telebirr_payment (fun _ => some docZeroSettledOnly) (strL "R")
          (some ⟨15000, 2⟩)).message =
        some (strL "Transaction verified but amount could not be confirmed") ∧
      (verify_telebirr_transaction (fun _ => some docZeroSettledOnly) (strL "R")
          (some ⟨15000, 2⟩)).matchesField =
        some ⟨false, none, none, some (strL "No amount found in receipt")⟩) :=
  ⟨(C10_zero_settled_treated_absent (fun _ => some docZeroSettledTotal) (strL "R")
      docZeroSettledTotal (strL "Completed") ⟨15000, 2⟩ 2 rfl (by decide) (by decide)
      (by decide) (by decide)).1 (.dec ⟨15000, 2⟩) ⟨15000, 2⟩ (by decide) (by decide)
      (by decide),
   (C10_zero_settled_treated_absent (fun _ => some docZeroSettledOnly) (strL "R")
      docZeroSettledOnly (strL "Completed") ⟨15000, 2⟩ 2 rfl (by decide) (by decide)
      (by decide) (by decide)).2 (by decide)⟩
